import Mathlib

/-!
Verification development for the Cloudflare-worker IP collector
(`src/_worker.js`, V2.5).  JavaScript strings are modelled as `List Char`;
the JS string primitives the worker relies on (`split('.')`,
`parseInt(s, 10)`, `startsWith`, `trim`, truthiness) are embedded below,
and each worker function is translated on top of them.  Timestamps
(`Date.now()`, ISO date strings compared via `new Date(x) < new Date()`)
are modelled as integer milliseconds.
-/

/-- JavaScript strings are modelled as lists of characters. -/
abbrev JSStr := List Char

/-- Convert a Lean string literal into the `List Char` model. -/
def lit (s : String) : JSStr := s.data

/-- The ten ASCII decimal digits: the digit class used by `parseInt(s, 10)`. -/
def digitChars : JSStr := ['0', '1', '2', '3', '4', '5', '6', '7', '8', '9']

/-- Is `c` an ASCII decimal digit? -/
def isDig (c : Char) : Bool := digitChars.contains c

/-- Numeric value of a digit character (9 on non-digits, never used there). -/
def digVal (c : Char) : Nat :=
  if c = '0' then 0 else if c = '1' then 1 else if c = '2' then 2
  else if c = '3' then 3 else if c = '4' then 4 else if c = '5' then 5
  else if c = '6' then 6 else if c = '7' then 7 else if c = '8' then 8 else 9

/-- Decimal-value accumulator over a digit sequence (left to right). -/
def natValFrom (acc : Nat) : JSStr → Nat
  | [] => acc
  | c :: cs => natValFrom (10 * acc + digVal c) cs

/-- Decimal value of a digit sequence (`0` on the empty sequence). -/
def natVal (cs : JSStr) : Nat := natValFrom 0 cs

/-- JS `s.split('.')`: splits on every dot, keeping empty groups, and yields
`[""]` on the empty string. -/
def splitDot : JSStr → List JSStr
  | [] => [[]]
  | c :: cs =>
    if c = '.' then [] :: splitDot cs
    else
      match splitDot cs with
      | [] => [[c]]
      | g :: gs => (c :: g) :: gs

/-- The whitespace characters `parseInt` skips (ASCII subset; the worker only
ever feeds it dot-groups of candidate addresses). -/
def isJsWs (c : Char) : Bool := c = ' ' || c = '\t' || c = '\n' || c = '\r'

/-- Longest leading run of decimal digits: what `parseInt(s, 10)` consumes. -/
def leadingDigits (cs : JSStr) : JSStr := cs.takeWhile isDig

/-- JS `parseInt(s, 10)`: skip leading whitespace, accept an optional sign,
then read the longest digit run, ignoring anything after it; `none` models
`NaN` (no digits at all). -/
def jsParseInt (cs : JSStr) : Option Int :=
  match cs.dropWhile isJsWs with
  | [] => none
  | c :: rest =>
    if c = '-' then
      if leadingDigits rest = [] then none
      else some (-(natVal (leadingDigits rest) : Int))
    else if c = '+' then
      if leadingDigits rest = [] then none
      else some ((natVal (leadingDigits rest) : Int))
    else
      if leadingDigits (c :: rest) = [] then none
      else some ((natVal (leadingDigits (c :: rest)) : Int))

/-- JS `s.trim()` (ASCII whitespace subset). -/
def jsTrim (s : JSStr) : JSStr :=
  ((s.dropWhile isJsWs).reverse.dropWhile isJsWs).reverse

/-- Loop body of `isValidIPv4` (`src/_worker.js` lines 2404-2409): every
dot-group must `parseInt` to a number in `[0, 255]` and must not carry a
leading-zero artifact (`part.startsWith('0') && part.length > 1`). -/
def partsOk : List JSStr → Bool
  | [] => true
  | p :: rest =>
    match jsParseInt p with
    | none => false
    | some n =>
      if n < 0 || 255 < n then false
      else if (lit "0").isPrefixOf p && 1 < p.length then false
      else partsOk rest

/-- `isValidIPv4` from `src/_worker.js` lines 2400-2422.  The source calls
`parseInt(parts[1])` without a radix in the 172 check; that agrees with radix
10 there because any group with a `0x` prefix was already rejected by the
leading-zero check, so `jsParseInt` is the faithful model at that point. -/
def isValidIPv4 (ip : JSStr) : Bool :=
  if (splitDot ip).length != 4 then false
  else if !partsOk (splitDot ip) then false
  else if (lit "10.").isPrefixOf ip
      || (lit "192.168.").isPrefixOf ip
      || ((lit "172.").isPrefixOf ip &&
            (match jsParseInt ((splitDot ip).getD 1 []) with
             | some n => decide (16 ≤ n) && decide (n ≤ 31)
             | none => false))
      || (lit "127.").isPrefixOf ip
      || (lit "169.254.").isPrefixOf ip
      || ip == lit "255.255.255.255"
  then false
  else true

/-- One dot-group as the specification words it (§4.1): a decimal group that
parses as an integer in `[0, 255]` with no invalid leading-zero artifact. -/
def specGroupOk (p : JSStr) : Bool :=
  !p.isEmpty && p.all isDig && decide (natVal p ≤ 255) &&
    !((lit "0").isPrefixOf p && decide (1 < p.length))

/-- The address validator exactly as the specification words it (§4.1):
exactly four dot-separated decimal groups, each in `[0, 255]` with no
leading-zero artifact; rejected when the string begins with `10.`,
`192.168.`, `127.`, `169.254.`, equals `255.255.255.255`, or lies
numerically in `172.16.0.0`-`172.31.255.255`. -/
def specValidIPv4 (s : JSStr) : Bool :=
  decide ((splitDot s).length = 4) && (splitDot s).all specGroupOk &&
  !((lit "10.").isPrefixOf s) && !((lit "192.168.").isPrefixOf s) &&
  !((lit "127.").isPrefixOf s) && !((lit "169.254.").isPrefixOf s) &&
  !(s == lit "255.255.255.255") &&
  !(decide (natVal ((splitDot s).getD 0 []) = 172) &&
      decide (16 ≤ natVal ((splitDot s).getD 1 [])) &&
      decide (natVal ((splitDot s).getD 1 []) ≤ 31))

/-! ## Harvesting pipeline (`updateAllIPs`, `src/_worker.js` lines 2223-2306) -/

/-- JS `\w` character class: used by the `\b` boundaries of the IP regex. -/
def isWordChar (c : Char) : Bool := c.isAlpha || isDig c || c = '_'

/-- Candidate lengths for one greedy `[0-9]{1,3}` group at the head of `cs`,
in the order a backtracking regex engine tries them (longest first). -/
def groupLens (cs : JSStr) : List Nat :=
  let d := (leadingDigits cs).length
  (if 3 ≤ d then [3] else []) ++ (if 2 ≤ d then [2] else []) ++
    (if 1 ≤ d then [1] else [])

/-- Match the tail of `\b(?:[0-9]{1,3}\.){3}[0-9]{1,3}\b` at the head of
`cs`: `g + 1` dot-terminated groups remain before the final group, which must
be followed by a word boundary.  Returns the number of characters consumed by
the first (leftmost-greedy) successful alternative. -/
def matchRest (cs : JSStr) : Nat → Option Nat
  | 0 =>
    (groupLens cs).findSome? fun k =>
      match cs.drop k with
      | [] => some k
      | c :: _ => if isWordChar c then none else some k
  | g + 1 =>
    (groupLens cs).findSome? fun k =>
      match cs.drop k with
      | c :: rest => if c = '.' then (matchRest rest g).map (fun n => k + 1 + n) else none
      | [] => none

/-- Global scan of `text.match(/\b(?:[0-9]{1,3}\.){3}[0-9]{1,3}\b/g)`: walk the
text left to right, attempt a match wherever a word boundary precedes the
position, and resume after each match.  `prev` is the character before the
current position (`none` at the start of the text); the fuel argument is an
upper bound on the number of scan steps. -/
def scanIPs : Nat → Option Char → JSStr → List JSStr
  | 0, _, _ => []
  | _ + 1, _, [] => []
  | fuel + 1, prev, c :: cs =>
    let boundary := match prev with
      | none => true
      | some p => !isWordChar p
    if boundary then
      match matchRest (c :: cs) 3 with
      | some n =>
        (c :: cs).take n ::
          scanIPs fuel (some (((c :: cs).take n).getLastD c)) ((c :: cs).drop n)
      | none => scanIPs fuel (some c) cs
    else scanIPs fuel (some c) cs

/-- `content.match(ipPattern) || []`: every match of the dotted-quad pattern
in the text, left to right. -/
def extractIPs (text : JSStr) : List JSStr := scanIPs (text.length + 1) none text

/-- `Set.prototype.add` preserves insertion order and drops duplicates. -/
def insertUnique (s : List JSStr) (ip : JSStr) : List JSStr :=
  if ip ∈ s then s else s ++ [ip]

/-- One per-source report, as pushed onto `results` (`src/_worker.js` lines
2264-2279): `count` is the number of regex matches, valid or not. -/
structure SourceReport where
  name : JSStr
  status : JSStr
  count : Nat
  errMsg : Option JSStr
deriving DecidableEq

/-- The report `updateAllIPs` records for one source. -/
def mkReport (src : JSStr × Except JSStr JSStr) : SourceReport :=
  match src.2 with
  | .ok content => ⟨src.1, lit "success", (extractIPs content).length, none⟩
  | .error e => ⟨src.1, lit "error", 0, some e⟩

/-- Processing of one settled fetch result inside the `updateAllIPs` loop:
on success, every regex match passing `isValidIPv4` is added to the set and a
success report is pushed; on failure only an error report is pushed.  The
batching (`BATCH_SIZE = 3`, `Promise.allSettled`, inter-batch delay) only
schedules the network I/O; the settled results are folded in source order. -/
def collectStep (acc : List JSStr × List SourceReport)
    (src : JSStr × Except JSStr JSStr) : List JSStr × List SourceReport :=
  match src.2 with
  | .ok content =>
    let ms := extractIPs content
    (ms.foldl (fun s ip => if isValidIPv4 ip then insertUnique s ip else s) acc.1,
     acc.2 ++ [⟨src.1, lit "success", ms.length, none⟩])
  | .error e => (acc.1, acc.2 ++ [⟨src.1, lit "error", 0, some e⟩])

/-- `parseInt(parts[i], 10)` of the `i`-th dot-group of an address, as used by
the sort comparator.  Every string that reaches the comparator passed
`isValidIPv4`, so `parseInt` never yields `NaN` there and all four groups
exist; the defaults (for `NaN` and a missing group) are unreachable on the
worker's data and are chosen so that ECMAScript's `SortCompare` rule "a `NaN`
comparator result counts as `+0`" is respected when both sides are absent. -/
def ipPart (s : JSStr) (i : Nat) : Int :=
  (jsParseInt ((splitDot s).getD i [])).getD 0

/-- The comparator of `src/_worker.js` lines 2290-2300: first differing octet
decides, by numeric difference. -/
def ipCmp (a b : JSStr) : Int :=
  if ipPart a 0 ≠ ipPart b 0 then ipPart a 0 - ipPart b 0
  else if ipPart a 1 ≠ ipPart b 1 then ipPart a 1 - ipPart b 1
  else if ipPart a 2 ≠ ipPart b 2 then ipPart a 2 - ipPart b 2
  else if ipPart a 3 ≠ ipPart b 3 then ipPart a 3 - ipPart b 3
  else 0

/-- `ipCmp a b <= 0`: the ordering realised by `Array.prototype.sort` with the
numeric comparator (a stable sort consistent with the comparator). -/
def ipLe (a b : JSStr) : Bool := decide (ipCmp a b ≤ 0)

/-- The pure core of `updateAllIPs`: fold the settled per-source fetch results
(source name paired with fetched text or error message) through the
collection loop, then sort the deduplicated set numerically. -/
def updateAllIPs (sources : List (JSStr × Except JSStr JSStr)) :
    List JSStr × List SourceReport :=
  let acc := sources.foldl collectStep ([], [])
  (acc.1.mergeSort ipLe, acc.2)

/-! ## Ranking engine (`autoSpeedTestAndStore`, `src/_worker.js` lines 2097-2154) -/

/-- Number of fast entries kept (`const FAST_IP_COUNT = 25`). -/
def FAST_IP_COUNT : Nat := 25

/-- Bound on the probed prefix (`const AUTO_TEST_MAX_IPS = 200`). -/
def AUTO_TEST_MAX_IPS : Nat := 200

/-- One entry of the stored fast list: `{ip, latency}` with the latency in
whole milliseconds. -/
structure SpeedEntry where
  ip : JSStr
  latency : Nat
deriving DecidableEq

/-- The record written to the `cloudflare_fast_ips` key (its `lastTested`
timestamp is omitted; it never enters any property below). -/
structure FastRecord where
  fastIPs : List SpeedEntry
  count : Nat
  testedCount : Nat
  totalIPs : Nat
deriving DecidableEq

/-- The latency comparator `(a, b) => a.latency - b.latency` read as the
ordering `a.latency - b.latency <= 0`. -/
def latLe (a b : SpeedEntry) : Bool :=
  decide ((a.latency : Int) - (b.latency : Int) ≤ 0)

/-- The pure core of `autoSpeedTestAndStore`: `probe ip` is the settled result
of `testIPSpeed(ip)` (`some latency` when `success` is true, `none` on its
catch path; `testIPSpeed` never rejects, so `Promise.allSettled` always
fulfills).  Latencies are `Date.now()` differences, hence non-negative whole
milliseconds, so `Math.round` is the identity on them.  The guard
`speedData.success && speedData.latency` drops a zero latency because `0` is
falsy.  Returns the record written to the store, or `none` when the early
return `if (!ips || ips.length === 0) return;` fires and nothing is written.
The probe batches (`BATCH_SIZE = 5`, inter-batch delay) only schedule I/O;
results are collected in input order.  `speedStep` is the loop body pushing
one settled probe result onto `speedResults`. -/
def speedStep (probe : JSStr → Option Nat) (acc : List SpeedEntry)
    (ip : JSStr) : List SpeedEntry :=
  match probe ip with
  | some lat => if lat ≠ 0 then acc ++ [⟨ip, lat⟩] else acc
  | none => acc

/-- See `speedStep` for the correspondence with `autoSpeedTestAndStore`. -/
def autoSpeedTestAndStore (ips : List JSStr) (probe : JSStr → Option Nat) :
    Option FastRecord :=
  if ips.isEmpty then none
  else
    let ipsToTest := ips.take AUTO_TEST_MAX_IPS
    let speedResults := ipsToTest.foldl (speedStep probe) []
    let fastIPs := (speedResults.mergeSort latLe).take FAST_IP_COUNT
    some ⟨fastIPs, fastIPs.length, speedResults.length, ips.length⟩

/-! ## Auth gate (`verifyAdmin` and friends, `src/_worker.js` lines 93-308) -/

/-- JS truthiness of a nullable string (`null`, `undefined` and `""` are
falsy). -/
def jsTruthyStr : Option JSStr → Bool
  | none => false
  | some s => !s.isEmpty

/-- The stored `token_config` record.  `expires` and `createdAt` are ISO
timestamps modelled as integer milliseconds; `lastUsed` is `null` or a
timestamp; `neverExpire` is absent (falsy) on login-created configs, which is
modelled as `false`. -/
structure TokenConfig where
  token : JSStr
  expires : Int
  createdAt : Int
  lastUsed : Option Int
  neverExpire : Bool
deriving DecidableEq

/-- The worker environment: `env.ADMIN_PASSWORD` (`none` = unset; `some ""`
is falsy as well). -/
structure Env where
  adminPassword : Option JSStr
deriving DecidableEq

/-- The credentials carried by one request: the `Authorization` header and
the `session` / `token` query parameters. -/
structure Request where
  authHeader : Option JSStr
  sessionParam : Option JSStr
  tokenParam : Option JSStr
deriving DecidableEq

/-- Oracle view of the KV store during one request: each operation either
returns a value or raises (`Except.error ()` models a thrown exception).
`getSession sid` is `env.IP_STORAGE.get('session_' + sid)`;
`getTokenCfgRaw` is the read (and JSON parse) behind `getTokenConfig`;
`putTokenCfg` is `env.IP_STORAGE.put('token_config', ...)`. -/
structure StoreOps where
  getSession : JSStr → Except Unit (Option JSStr)
  getTokenCfgRaw : Except Unit (Option TokenConfig)
  putTokenCfg : TokenConfig → Except Unit Unit

/-- `getTokenConfig` (`src/_worker.js` lines 230-237): its own `try`/`catch`
swallows read and parse errors and returns `null`. -/
def getTokenConfig (st : StoreOps) : Option TokenConfig :=
  match st.getTokenCfgRaw with
  | .error _ => none
  | .ok v => v

/-- The session id taken from an `Authorization: Bearer ...` header. -/
def bearerSession (req : Request) : Option JSStr :=
  match req.authHeader with
  | some h => if (lit "Bearer ").isPrefixOf h then some (h.drop 7) else none
  | none => none

/-- The token taken from an `Authorization: Token ...` header. -/
def headerToken (req : Request) : Option JSStr :=
  match req.authHeader with
  | some h => if (lit "Token ").isPrefixOf h then some (h.drop 6) else none
  | none => none

/-- The `lastUsed` write performed on a successful token match, then
`return true`.  A thrown `put` is caught by the enclosing `try`/`catch` of
`verifyAdmin` which returns `false`; the second component records that a
store operation raised. -/
def tokenPut (st : StoreOps) (cfg : TokenConfig) (now : Int) : Bool × Bool :=
  match st.putTokenCfg { cfg with lastUsed := some now } with
  | .ok _ => (true, false)
  | .error _ => (false, true)

/-- The token section of `verifyAdmin` (`src/_worker.js` lines 276-302): a
raised token-config read is swallowed inside `getTokenConfig` (config
`null`, fall through to `return false`); an existing config is rejected
outright when expired and not `neverExpire`; otherwise the query-parameter
token and then the `Token` header are compared. -/
def tokenCheck (req : Request) (st : StoreOps) (now : Int) : Bool × Bool :=
  match st.getTokenCfgRaw with
  | .error _ => (false, true)
  | .ok none => (false, false)
  | .ok (some cfg) =>
    if !cfg.neverExpire && decide (cfg.expires < now) then (false, false)
    else if req.tokenParam = some cfg.token then tokenPut st cfg now
    else match headerToken req with
      | some t => if t = cfg.token then tokenPut st cfg now else (false, false)
      | none => (false, false)

/-- One session-store lookup: a raised `get` is caught by the enclosing
`try`/`catch` of `verifyAdmin` (result `false`, exception recorded); a truthy
stored value authorizes; otherwise control continues with `k`. -/
def sessionLookup (st : StoreOps) (sid : JSStr) (k : Bool × Bool) : Bool × Bool :=
  match st.getSession sid with
  | .error _ => (false, true)
  | .ok v => if jsTruthyStr v then (true, false) else k

/-- The `session` query-parameter check of `verifyAdmin` (`src/_worker.js`
lines 266-274): the lookup happens only for a truthy parameter; on a miss
control falls through to the token section. -/
def sessionParamStep (req : Request) (st : StoreOps) (now : Int) : Bool × Bool :=
  match req.sessionParam with
  | some sid =>
    if sid.isEmpty then tokenCheck req st now
    else sessionLookup st sid (tokenCheck req st now)
  | none => tokenCheck req st now

/-- `verifyAdmin` (`src/_worker.js` lines 250-308), instrumented: the first
component is the returned boolean, the second records whether a store
operation raised during the run.  With no (truthy) `ADMIN_PASSWORD` every
request passes before the `try` block.  Order inside the `try`: the
`Authorization: Bearer` session (looked up even when the sliced id is
empty), then the `session` query parameter (only when truthy), then the
token section. -/
def verifyAdminRun (env : Env) (req : Request) (st : StoreOps) (now : Int) :
    Bool × Bool :=
  if !jsTruthyStr env.adminPassword then (true, false)
  else
    match bearerSession req with
    | some sid => sessionLookup st sid (sessionParamStep req st now)
    | none => sessionParamStep req st now

/-- The boolean `verifyAdmin` returns. -/
def verifyAdmin (env : Env) (req : Request) (st : StoreOps) (now : Int) : Bool :=
  (verifyAdminRun env req st now).1

/-! ## Token rotation (`handleAdminToken`, `src/_worker.js` lines 149-200) and
admin status (`handleAdminStatus`, lines 203-214) -/

/-- HTTP method of a request, as dispatched by `handleAdminToken`. -/
inductive HttpMethod where
  | get
  | post
  | other
deriving DecidableEq

/-- The parsed JSON body of a rotation request:
`const { token, expiresDays, neverExpire } = await request.json()`.
`neverExpire` is its truthiness. -/
structure TokenBody where
  token : Option JSStr
  expiresDays : Option Int
  neverExpire : Bool
deriving DecidableEq

/-- Responses of `handleAdminToken` (status and shape; bodies reduced to the
data the worker puts in them). -/
inductive TokenResp where
  | unauthorized
  | badRequest (msg : JSStr)
  | okGet (cfg : Option TokenConfig)
  | succeeded (cfg : TokenConfig)
  | methodNotAllowed
deriving DecidableEq

/-- The POST branch of `handleAdminToken` (`src/_worker.js` lines 157-196):
reject a falsy token; with `neverExpire` store a 100-year expiry; otherwise
reject a falsy `expiresDays` (absent or `0`), reject days outside `1..365`,
and store the trimmed token with the computed expiry.  `cur` is the stored
`token_config` value; the second component is its value after the call. -/
def handleAdminTokenPost (body : TokenBody) (cur : Option TokenConfig)
    (now : Int) : TokenResp × Option TokenConfig :=
  match body.token with
  | none => (.badRequest (lit "Token must not be empty"), cur)
  | some t =>
    if t.isEmpty then (.badRequest (lit "Token must not be empty"), cur)
    else if body.neverExpire then
      let cfg : TokenConfig :=
        ⟨jsTrim t, now + 100 * 365 * 24 * 60 * 60 * 1000, now, none, true⟩
      (.succeeded cfg, some cfg)
    else
      match body.expiresDays with
      | none => (.badRequest (lit "Expiry must not be empty"), cur)
      | some d =>
        if d = 0 then (.badRequest (lit "Expiry must not be empty"), cur)
        else if d < 1 || 365 < d then
          (.badRequest (lit "Expiry must be between 1 and 365 days"), cur)
        else
          let cfg : TokenConfig :=
            ⟨jsTrim t, now + d * 24 * 60 * 60 * 1000, now, none, false⟩
          (.succeeded cfg, some cfg)

/-- `handleAdminToken`: gate through `verifyAdmin`, then dispatch on the
method.  `st` is the oracle view of the store consulted by the
authorization check and the GET read; `cur` tracks the stored
`token_config` value relevant to rotation (the best-effort `lastUsed`
refresh a token-authenticated `verifyAdmin` performs rewrites the same
config with only `lastUsed` changed and is not folded into `cur`). -/
def handleAdminToken (env : Env) (req : Request) (st : StoreOps) (now : Int)
    (method : HttpMethod) (body : TokenBody) (cur : Option TokenConfig) :
    TokenResp × Option TokenConfig :=
  if verifyAdmin env req st now = false then (.unauthorized, cur)
  else match method with
    | .get => (.okGet (getTokenConfig st), cur)
    | .post => handleAdminTokenPost body cur now
    | .other => (.methodNotAllowed, cur)

/-- The JSON body `handleAdminStatus` responds with: the full stored
`tokenConfig` object next to the two booleans. -/
structure StatusResp where
  hasAdminPassword : Bool
  hasToken : Bool
  tokenConfig : Option TokenConfig
deriving DecidableEq

/-- `handleAdminStatus` (`src/_worker.js` lines 203-214): no authorization
check; the whole stored config is serialized into the response.
`getTokenConfig` never throws, so the surrounding `try`/`catch` is inert. -/
def handleAdminStatus (env : Env) (st : StoreOps) : StatusResp :=
  ⟨jsTruthyStr env.adminPassword, (getTokenConfig st).isSome, getTokenConfig st⟩

/-- The `/admin-status` arm of the fetch dispatcher (`src/_worker.js` line
77-78): `return await handleAdminStatus(env)` — the request object, and with
it any credential, is not passed in. -/
def routeAdminStatus (env : Env) (st : StoreOps) (_req : Request) : StatusResp :=
  handleAdminStatus env st

/-! ## Auxiliary definitions and concrete instances used by the theorems -/

/-- A store where every operation raises. -/
def stAllErr : StoreOps :=
  ⟨fun _ => .error (), .error (), fun _ => .error ()⟩

/-- An expired token config (`expires` = 5, `neverExpire` false). -/
def cfgExpired : TokenConfig := ⟨lit "TOK", 5, 0, none, false⟩

/-- A store holding `cfgExpired` in which every session id resolves. -/
def stSessHit : StoreOps :=
  ⟨fun _ => .ok (some (lit "s")), .ok (some cfgExpired), fun _ => .ok ()⟩

/-- A store holding `cfgExpired` with no live sessions. -/
def stNoSess : StoreOps :=
  ⟨fun _ => .ok none, .ok (some cfgExpired), fun _ => .ok ()⟩

/-- An unexpired token config (`expires` = 100, `neverExpire` false). -/
def cfgLive : TokenConfig := ⟨lit "TOK", 100, 0, none, false⟩

/-- A store holding `cfgLive`, no sessions, whose `put` raises. -/
def stPutFail : StoreOps :=
  ⟨fun _ => .ok none, .ok (some cfgLive), fun _ => .error ()⟩

/-- A store holding `cfgLive`, no sessions, whose `put` succeeds. -/
def stPutOk : StoreOps :=
  ⟨fun _ => .ok none, .ok (some cfgLive), fun _ => .ok ()⟩

/-- A store exposing the token config `cfgLive` (token value `"TOK"`). -/
def stStatus : StoreOps :=
  ⟨fun _ => .ok none, .ok (some cfgLive), fun _ => .ok ()⟩

/-- Number of probes, among the (at most 200) probed addresses, that succeed
with a nonzero latency — exactly the entries the collection loop keeps. -/
def qualCount (ips : List JSStr) (probe : JSStr → Option Nat) : Nat :=
  (ips.take AUTO_TEST_MAX_IPS).countP (fun ip => (probe ip).getD 0 != 0)

/-- The selection underlying `speedStep`: the entry one probe contributes. -/
def speedSel (probe : JSStr → Option Nat) (ip : JSStr) : Option SpeedEntry :=
  match probe ip with
  | some lat => if lat ≠ 0 then some ⟨ip, lat⟩ else none
  | none => none

/-- Inverse of `splitDot`: interleave the groups with dots. -/
def joinDot : List JSStr → JSStr
  | [] => []
  | [g] => g
  | g :: g2 :: gs => g ++ '.' :: joinDot (g2 :: gs)

/-! ## Claim theorems: auth gate -/

/-- C3: with `ADMIN_PASSWORD` unset, `verifyAdmin` returns `true` for every
request, whatever credentials it carries and whatever the store does. -/
theorem verifyAdmin_open_mode (req : Request) (st : StoreOps) (now : Int) :
    verifyAdmin { adminPassword := none } req st now = true := rfl

theorem tokenPut_fc (st : StoreOps) (cfg : TokenConfig) (now : Int) :
    (tokenPut st cfg now).2 = true → (tokenPut st cfg now).1 = false := by
  unfold tokenPut
  rcases st.putTokenCfg { cfg with lastUsed := some now } with e | u <;> simp

theorem tokenCheck_fc (req : Request) (st : StoreOps) (now : Int) :
    (tokenCheck req st now).2 = true → (tokenCheck req st now).1 = false := by
  unfold tokenCheck
  split
  · simp
  · simp
  · split
    · simp
    · split
      · apply tokenPut_fc
      · split
        · split
          · apply tokenPut_fc
          · simp
        · simp

theorem sessionLookup_fc (st : StoreOps) (sid : JSStr) (k : Bool × Bool)
    (hk : k.2 = true → k.1 = false) :
    (sessionLookup st sid k).2 = true → (sessionLookup st sid k).1 = false := by
  unfold sessionLookup
  rcases st.getSession sid with e | v
  · simp
  · by_cases hv : jsTruthyStr v = true
    · simp [hv]
    · simp only [hv, if_false]
      exact hk

theorem sessionParamStep_fc (req : Request) (st : StoreOps) (now : Int) :
    (sessionParamStep req st now).2 = true →
    (sessionParamStep req st now).1 = false := by
  unfold sessionParamStep
  split
  · split
    · apply tokenCheck_fc
    · exact sessionLookup_fc st _ _ (tokenCheck_fc req st now)
  · apply tokenCheck_fc

/-- C2: whenever a store operation raises during the credential lookup of
`verifyAdmin` (session read, token-config read, token-config write), the
result is `false` — the exception path never authorizes. -/
theorem verifyAdmin_fail_closed (env : Env) (req : Request) (st : StoreOps)
    (now : Int) (h : (verifyAdminRun env req st now).2 = true) :
    verifyAdmin env req st now = false := by
  unfold verifyAdmin verifyAdminRun at *
  revert h
  split
  · simp
  · split
    · exact sessionLookup_fc st _ _ (sessionParamStep_fc req st now)
    · exact sessionParamStep_fc req st now

/-- Witness for C2: a raised session read denies a request that carries a
session header. -/
theorem verifyAdmin_fail_closed_witness :
    (verifyAdminRun ⟨some (lit "pw")⟩ ⟨some (lit "Bearer abc"), none, none⟩
        stAllErr 0).2 = true ∧
    verifyAdmin ⟨some (lit "pw")⟩ ⟨some (lit "Bearer abc"), none, none⟩
        stAllErr 0 = false :=
  ⟨by decide, verifyAdmin_fail_closed _ _ _ _ (by decide)⟩


theorem sessionLookup_err (st : StoreOps) (sid : JSStr) (k : Bool × Bool)
    (e : Unit) (hg : st.getSession sid = .error e) :
    sessionLookup st sid k = (false, true) := by
  unfold sessionLookup
  rw [hg]

theorem sessionLookup_pass (st : StoreOps) (sid : JSStr) (k : Bool × Bool)
    (v : Option JSStr) (hg : st.getSession sid = .ok v)
    (hv : jsTruthyStr v = false) :
    sessionLookup st sid k = k := by
  unfold sessionLookup
  rw [hg]
  simp [hv]

theorem sessionLookup_fst (st : StoreOps) (sid : JSStr) (k : Bool × Bool)
    (hk : k.1 = false)
    (hv : ∀ v, st.getSession sid = .ok v → jsTruthyStr v = false) :
    (sessionLookup st sid k).1 = false := by
  rcases hg : st.getSession sid with e | v
  · rw [sessionLookup_err st sid k e hg]
  · rw [sessionLookup_pass st sid k v hg (hv v hg)]
    exact hk

theorem sessionParamStep_none (req : Request) (st : StoreOps) (now : Int)
    (h : req.sessionParam = none) :
    sessionParamStep req st now = tokenCheck req st now := by
  unfold sessionParamStep
  rw [h]

theorem sessionParamStep_empty (req : Request) (st : StoreOps) (now : Int)
    (sid : JSStr) (h : req.sessionParam = some sid) (he : sid.isEmpty = true) :
    sessionParamStep req st now = tokenCheck req st now := by
  unfold sessionParamStep
  rw [h]
  simp [he]

theorem sessionParamStep_some (req : Request) (st : StoreOps) (now : Int)
    (sid : JSStr) (h : req.sessionParam = some sid) (he : sid.isEmpty = false) :
    sessionParamStep req st now = sessionLookup st sid (tokenCheck req st now) := by
  unfold sessionParamStep
  rw [h]
  simp [he]

theorem sessionParamStep_fst (req : Request) (st : StoreOps) (now : Int)
    (hk : (tokenCheck req st now).1 = false)
    (hv : ∀ sid v, req.sessionParam = some sid → st.getSession sid = .ok v →
      jsTruthyStr v = false) :
    (sessionParamStep req st now).1 = false := by
  rcases hsp : req.sessionParam with _ | sid
  · rw [sessionParamStep_none req st now hsp]
    exact hk
  · cases he : sid.isEmpty with
    | true =>
      rw [sessionParamStep_empty req st now sid hsp he]
      exact hk
    | false =>
      rw [sessionParamStep_some req st now sid hsp he]
      exact sessionLookup_fst st sid _ hk (fun v hg => hv sid v hsp hg)

theorem verifyAdminRun_gate (env : Env) (req : Request) (st : StoreOps)
    (now : Int) (hpw : jsTruthyStr env.adminPassword = true) :
    verifyAdminRun env req st now =
      (match bearerSession req with
       | some sid => sessionLookup st sid (sessionParamStep req st now)
       | none => sessionParamStep req st now) := by
  unfold verifyAdminRun
  rw [hpw]
  simp

theorem tokenCheck_cfg (req : Request) (st : StoreOps) (now : Int)
    (cfg : TokenConfig) (hcfg : st.getTokenCfgRaw = .ok (some cfg)) :
    tokenCheck req st now =
      (if (!cfg.neverExpire && decide (cfg.expires < now)) = true then
        (false, false)
       else if req.tokenParam = some cfg.token then tokenPut st cfg now
       else match headerToken req with
         | some t => if t = cfg.token then tokenPut st cfg now else (false, false)
         | none => (false, false)) := by
  unfold tokenCheck
  rw [hcfg]

/-- C1 counterexample: two requests that carry the stored token, expired
(`expires` = 5 < `now` = 10) with `neverExpire` false, yet `verifyAdmin`
returns `true`: the first also carries a valid session (checked before the
token section), the second runs with `ADMIN_PASSWORD` unset (open mode). -/
theorem expired_token_claim_cex :
    (cfgExpired.neverExpire = false ∧ cfgExpired.expires < 10 ∧
      getTokenConfig stSessHit = some cfgExpired ∧
      (⟨some (lit "Bearer abc"), none, some (lit "TOK")⟩ : Request).tokenParam
        = some cfgExpired.token ∧
      verifyAdmin ⟨some (lit "pw")⟩
        ⟨some (lit "Bearer abc"), none, some (lit "TOK")⟩ stSessHit 10 = true) ∧
    (cfgExpired.neverExpire = false ∧ cfgExpired.expires < 10 ∧
      getTokenConfig stNoSess = some cfgExpired ∧
      (⟨none, none, some (lit "TOK")⟩ : Request).tokenParam
        = some cfgExpired.token ∧
      verifyAdmin ⟨none⟩ ⟨none, none, some (lit "TOK")⟩ stNoSess 10 = true) := by
  decide

/-- C1 amended: a request carrying the stored token, expired and not
`neverExpire`, is denied — provided an admin password is configured and no
session credential of the request authorizes it. -/
theorem verifyAdmin_expired_token_denied
    (env : Env) (req : Request) (st : StoreOps) (now : Int) (cfg : TokenConfig)
    (hpw : jsTruthyStr env.adminPassword = true)
    (hb : ∀ sid v, bearerSession req = some sid → st.getSession sid = .ok v →
      jsTruthyStr v = false)
    (hs : ∀ sid v, req.sessionParam = some sid → st.getSession sid = .ok v →
      jsTruthyStr v = false)
    (hcfg : st.getTokenCfgRaw = .ok (some cfg))
    (_htok : req.tokenParam = some cfg.token ∨ headerToken req = some cfg.token)
    (hne : cfg.neverExpire = false)
    (hexp : cfg.expires < now) :
    verifyAdmin env req st now = false := by
  have h3 : tokenCheck req st now = (false, false) := by
    rw [tokenCheck_cfg req st now cfg hcfg]
    simp [hne, hexp]
  have h2 : (sessionParamStep req st now).1 = false :=
    sessionParamStep_fst req st now (by simp [h3]) hs
  unfold verifyAdmin
  rw [verifyAdminRun_gate env req st now hpw]
  rcases hbs : bearerSession req with _ | sid
  · exact h2
  · exact sessionLookup_fst st sid _ h2 (fun v hg => hb sid v hbs hg)

/-- Witness for the amended C1 at a concrete request and store. -/
theorem verifyAdmin_expired_token_denied_witness :
    verifyAdmin ⟨some (lit "pw")⟩ ⟨none, none, some (lit "TOK")⟩ stNoSess 10
      = false :=
  verifyAdmin_expired_token_denied _ _ _ _ cfgExpired (by decide)
    (by intro sid v h1 _; simp [bearerSession] at h1)
    (by intro sid v h1 _; simp at h1)
    rfl (Or.inl rfl) (by decide) (by decide)

/-- C9 counterexample: a request authenticated with the matching, unexpired
token is denied when persisting the `lastUsed` update raises — the write is
awaited inside the `try` of `verifyAdmin` and the `catch` returns `false`. -/
theorem token_lastUsed_put_failure_cex :
    cfgLive.neverExpire = false ∧ (10 : Int) ≤ cfgLive.expires ∧
    getTokenConfig stPutFail = some cfgLive ∧
    (⟨none, none, some (lit "TOK")⟩ : Request).tokenParam
      = some cfgLive.token ∧
    verifyAdmin ⟨some (lit "pw")⟩ ⟨none, none, some (lit "TOK")⟩ stPutFail 10
      = false := by
  decide

/-- C9 amended: with a matching, unexpired token (and no authorizing or
raising session credential), the request is authorized exactly when the
`lastUsed` persist succeeds; a failing persist denies it (fail-closed). -/
theorem verifyAdmin_token_lastUsed_put
    (env : Env) (req : Request) (st : StoreOps) (now : Int) (cfg : TokenConfig)
    (hpw : jsTruthyStr env.adminPassword = true)
    (hb : ∀ sid, bearerSession req = some sid →
      ∃ v, st.getSession sid = Except.ok v ∧ jsTruthyStr v = false)
    (hs : ∀ sid, req.sessionParam = some sid → sid.isEmpty = false →
      ∃ v, st.getSession sid = Except.ok v ∧ jsTruthyStr v = false)
    (hcfg : st.getTokenCfgRaw = Except.ok (some cfg))
    (hlive : cfg.neverExpire = true ∨ now ≤ cfg.expires)
    (htok : req.tokenParam = some cfg.token ∨
      (req.tokenParam ≠ some cfg.token ∧ headerToken req = some cfg.token)) :
    (st.putTokenCfg { cfg with lastUsed := some now } = .ok () →
      verifyAdmin env req st now = true) ∧
    (st.putTokenCfg { cfg with lastUsed := some now } = .error () →
      verifyAdmin env req st now = false) := by
  have hcond : (!cfg.neverExpire && decide (cfg.expires < now)) = false := by
    rcases hlive with h | h
    · simp [h]
    · have hn : ¬ (cfg.expires < now) := not_lt.mpr h
      simp [hn]
  have h3 : tokenCheck req st now = tokenPut st cfg now := by
    rw [tokenCheck_cfg req st now cfg hcfg, hcond]
    rcases htok with h | ⟨h1, h2⟩
    · simp [h]
    · rw [if_neg (by simp), if_neg h1, h2]
      simp
  have h2 : sessionParamStep req st now = tokenCheck req st now := by
    rcases hsp : req.sessionParam with _ | sid
    · exact sessionParamStep_none req st now hsp
    · cases he : sid.isEmpty with
      | true => exact sessionParamStep_empty req st now sid hsp he
      | false =>
        obtain ⟨v, hg, hv⟩ := hs sid hsp he
        rw [sessionParamStep_some req st now sid hsp he,
          sessionLookup_pass st sid _ v hg hv]
  have h1 : verifyAdminRun env req st now = tokenPut st cfg now := by
    rw [verifyAdminRun_gate env req st now hpw]
    rcases hbs : bearerSession req with _ | sid
    · show sessionParamStep req st now = tokenPut st cfg now
      rw [h2, h3]
    · show sessionLookup st sid (sessionParamStep req st now)
        = tokenPut st cfg now
      obtain ⟨v, hg, hv⟩ := hb sid hbs
      rw [sessionLookup_pass st sid _ v hg hv, h2, h3]
  constructor
  · intro hput
    unfold verifyAdmin
    rw [h1]
    unfold tokenPut
    rw [hput]
  · intro hput
    unfold verifyAdmin
    rw [h1]
    unfold tokenPut
    rw [hput]

/-- Witness for the amended C9: with a succeeding persist, the matching
unexpired token authorizes. -/
theorem verifyAdmin_token_lastUsed_put_witness :
    verifyAdmin ⟨some (lit "pw")⟩ ⟨none, none, some (lit "TOK")⟩ stPutOk 10
      = true :=
  (verifyAdmin_token_lastUsed_put _ _ _ _ cfgLive (by decide)
    (by intro sid h1; simp [bearerSession] at h1)
    (by intro sid h1 _; simp at h1)
    rfl (Or.inr (by decide)) (Or.inl rfl)).1 rfl

/-! ## Claim theorems: token rotation and admin status -/

/-- C8 counterexample: an authorized rotation (open mode authorizes) that
submits the token value `" abc "` succeeds, but the stored token is the
trimmed `"abc"`, not the submitted value. -/
theorem rotation_submitted_token_cex :
    handleAdminToken ⟨none⟩ ⟨none, none, none⟩ stPutOk 0 .post
        ⟨some (lit " abc "), some 30, false⟩ none
      = (.succeeded ⟨lit "abc", 2592000000, 0, none, false⟩,
         some ⟨lit "abc", 2592000000, 0, none, false⟩) ∧
    (lit "abc" : JSStr) ≠ lit " abc " := by
  decide

/-- C8 amended: an authorized rotation with an explicit expiry succeeds
exactly when the day count lies in `1..365`; out-of-range (or zero) day
counts are rejected with the stored config untouched, and on success the
stored config is wholly replaced by the submitted token value trimmed of
surrounding whitespace together with the computed expiry. -/
theorem handleAdminToken_rotation_bounds
    (env : Env) (req : Request) (st : StoreOps) (now : Int)
    (cur : Option TokenConfig) (t : JSStr) (d : Int)
    (hauth : verifyAdmin env req st now = true)
    (ht : t.isEmpty = false) :
    ((1 ≤ d ∧ d ≤ 365) →
      handleAdminToken env req st now .post ⟨some t, some d, false⟩ cur =
        (.succeeded ⟨jsTrim t, now + d * 24 * 60 * 60 * 1000, now, none, false⟩,
         some ⟨jsTrim t, now + d * 24 * 60 * 60 * 1000, now, none, false⟩)) ∧
    (¬(1 ≤ d ∧ d ≤ 365) →
      (handleAdminToken env req st now .post ⟨some t, some d, false⟩ cur).2
          = cur ∧
      ∀ cfg, (handleAdminToken env req st now .post ⟨some t, some d, false⟩
          cur).1 ≠ .succeeded cfg) := by
  have hgate : handleAdminToken env req st now .post ⟨some t, some d, false⟩ cur
      = handleAdminTokenPost ⟨some t, some d, false⟩ cur now := by
    unfold handleAdminToken
    rw [hauth]
    simp
  rw [hgate]
  unfold handleAdminTokenPost
  simp only [ht]
  constructor
  · intro hd
    have hd0 : ¬ (d = 0) := by omega
    have hrange : ¬ (d < 1 ∨ 365 < d) := by omega
    simp [hd0, hrange]
  · intro hd
    by_cases hd0 : d = 0
    · simp [hd0]
    · have hrange : d < 1 ∨ 365 < d := by omega
      simp [hd0, hrange]

/-- Witness for the amended C8: a 30-day rotation stores the trimmed token
and the computed expiry. -/
theorem handleAdminToken_rotation_bounds_witness :
    handleAdminToken ⟨none⟩ ⟨none, none, none⟩ stPutOk 0 .post
        ⟨some (lit "tok"), some 30, false⟩ none
      = (.succeeded ⟨jsTrim (lit "tok"), 0 + 30 * 24 * 60 * 60 * 1000, 0,
          none, false⟩,
         some ⟨jsTrim (lit "tok"), 0 + 30 * 24 * 60 * 60 * 1000, 0,
          none, false⟩) :=
  (handleAdminToken_rotation_bounds ⟨none⟩ ⟨none, none, none⟩ stPutOk 0 none
      (lit "tok") 30 (by decide) (by decide)).1 (by constructor <;> decide)

/-- C10: `/admin-status` ignores the request entirely — any two requests,
with or without credentials, get the same response — and that response
carries the complete stored `tokenConfig`, secret token string included. -/
theorem adminStatus_request_independent_leaks_token
    (env : Env) (st : StoreOps) (r1 r2 : Request) (cfg : TokenConfig)
    (hcfg : st.getTokenCfgRaw = .ok (some cfg)) :
    routeAdminStatus env st r1 = routeAdminStatus env st r2 ∧
    (routeAdminStatus env st r1).tokenConfig = some cfg ∧
    ((routeAdminStatus env st r1).tokenConfig.map TokenConfig.token)
      = some cfg.token := by
  refine ⟨rfl, ?_, ?_⟩ <;>
    simp [routeAdminStatus, handleAdminStatus, getTokenConfig, hcfg]

/-- Witness for C10: an unauthenticated request and a credentialed one read
the same body, which contains the stored secret token. -/
theorem adminStatus_leak_witness :
    routeAdminStatus ⟨some (lit "pw")⟩ stStatus ⟨none, none, none⟩
      = routeAdminStatus ⟨some (lit "pw")⟩ stStatus
          ⟨some (lit "Bearer abc"), none, some (lit "TOK")⟩ ∧
    (routeAdminStatus ⟨some (lit "pw")⟩ stStatus
        ⟨none, none, none⟩).tokenConfig = some cfgLive ∧
    ((routeAdminStatus ⟨some (lit "pw")⟩ stStatus
        ⟨none, none, none⟩).tokenConfig.map TokenConfig.token)
      = some cfgLive.token :=
  adminStatus_request_independent_leaks_token _ _ _ _ cfgLive rfl

/-! ## Claim theorems: ranking engine -/

theorem latLe_trans (a b c : SpeedEntry) :
    latLe a b → latLe b c → latLe a c := by
  simp only [latLe, decide_eq_true_eq]
  omega

theorem latLe_total (a b : SpeedEntry) : latLe a b || latLe b a := by
  simp only [latLe, Bool.or_eq_true, decide_eq_true_eq]
  omega

theorem speedStep_eq (probe : JSStr → Option Nat) (acc : List SpeedEntry)
    (ip : JSStr) :
    speedStep probe acc ip = acc ++ (speedSel probe ip).toList := by
  unfold speedStep speedSel
  rcases hp : probe ip with _ | lat
  · simp
  · by_cases h0 : lat ≠ 0
    · show (if lat ≠ 0 then acc ++ [⟨ip, lat⟩] else acc)
        = acc ++ (if lat ≠ 0 then some (⟨ip, lat⟩ : SpeedEntry) else none).toList
      rw [if_pos h0, if_pos h0]
      simp
    · show (if lat ≠ 0 then acc ++ [⟨ip, lat⟩] else acc)
        = acc ++ (if lat ≠ 0 then some (⟨ip, lat⟩ : SpeedEntry) else none).toList
      rw [if_neg h0, if_neg h0]
      simp

theorem speedFold_eq (probe : JSStr → Option Nat) :
    ∀ (l : List JSStr) (acc : List SpeedEntry),
      l.foldl (speedStep probe) acc = acc ++ l.filterMap (speedSel probe) := by
  intro l
  induction l with
  | nil => simp
  | cons ip rest ih =>
    intro acc
    rw [List.foldl_cons, List.filterMap_cons, speedStep_eq, ih]
    rcases speedSel probe ip with _ | e <;> simp

theorem speedFilter_length (probe : JSStr → Option Nat) (l : List JSStr) :
    (l.filterMap (speedSel probe)).length
      = l.countP (fun ip => (probe ip).getD 0 != 0) := by
  induction l with
  | nil => simp
  | cons ip rest ih =>
    rw [List.filterMap_cons, List.countP_cons]
    have hsel : speedSel probe ip = none ∨
        ∃ lat, probe ip = some lat ∧ lat ≠ 0 ∧
          speedSel probe ip = some ⟨ip, lat⟩ := by
      unfold speedSel
      rcases hp : probe ip with _ | lat
      · exact Or.inl rfl
      · by_cases h0 : lat ≠ 0
        · exact Or.inr ⟨lat, rfl, h0, by simp [h0]⟩
        · left
          show (if lat ≠ 0 then some (⟨ip, lat⟩ : SpeedEntry) else none) = none
          rw [if_neg h0]
    have hcnt : ((probe ip).getD 0 != 0) = (speedSel probe ip).isSome := by
      unfold speedSel
      rcases probe ip with _ | lat
      · simp
      · by_cases h0 : lat ≠ 0
        · simp [h0]
        · simp only [not_not] at h0
          simp [h0]
    rcases hsel with h | ⟨lat, hp, h0, h⟩ <;> rw [h] <;> simp [hcnt, h, ih]

/-- C6 counterexample: (1) with one address whose probe succeeds at latency
0 ms, the guard `speedData.success && speedData.latency` drops it, so the
stored record holds zero entries although one probe succeeded; (2) with an
empty input list the early return fires and no record at all is stored, so no
empty FastSet is written. -/
theorem autoSpeed_claim_cex :
    autoSpeedTestAndStore [lit "1.2.3.4"] (fun _ => some 0)
      = some ⟨[], 0, 0, 1⟩ ∧
    autoSpeedTestAndStore ([] : List JSStr) (fun _ => some 5) = none := by
  constructor
  · have h : speedStep (fun _ => some 0) [] (lit "1.2.3.4") = [] := by decide
    simp [autoSpeedTestAndStore, AUTO_TEST_MAX_IPS, FAST_IP_COUNT, h]
  · rfl

/-- C6 amended: on a nonempty input the ranking run always stores a record;
its entry list is sorted non-decreasing by latency and holds
`min (successes with nonzero latency) FAST_IP_COUNT` entries (so at most 25,
and exactly the number of qualifying successes when fewer than 25, empty when
none qualify).  On an empty input nothing is stored at all. -/
theorem autoSpeed_bounds (ips : List JSStr) (probe : JSStr → Option Nat) :
    (ips = [] → autoSpeedTestAndStore ips probe = none) ∧
    (ips ≠ [] → ∃ rec, autoSpeedTestAndStore ips probe = some rec ∧
      rec.fastIPs.length = min (qualCount ips probe) FAST_IP_COUNT ∧
      rec.fastIPs.Pairwise (fun a b => a.latency ≤ b.latency) ∧
      rec.count = rec.fastIPs.length) := by
  constructor
  · intro h
    simp [autoSpeedTestAndStore, h]
  · intro h
    have hne : ips.isEmpty = false := by
      simpa [List.isEmpty_iff] using h
    unfold autoSpeedTestAndStore
    rw [hne]
    simp only [Bool.false_eq_true, if_false]
    refine ⟨_, rfl, ?_, ?_, rfl⟩
    · rw [List.length_take, List.length_mergeSort, speedFold_eq,
        List.nil_append, speedFilter_length]
      exact Nat.min_comm _ _
    · have hsorted := List.sorted_mergeSort
        (fun a b c => latLe_trans a b c) latLe_total
        ((ips.take AUTO_TEST_MAX_IPS).foldl (fun acc ip =>
          match probe ip with
          | some lat => if lat ≠ 0 then acc ++ [⟨ip, lat⟩] else acc
          | none => acc) [])
      have htake := hsorted.sublist (List.take_sublist FAST_IP_COUNT _)
      exact htake.imp (by intro a b hab; simpa [latLe] using hab)

/-- Witness for the amended C6 on a two-address input with distinct probe
latencies. -/
theorem autoSpeed_bounds_witness :
    ∃ rec, autoSpeedTestAndStore [lit "1.1.1.1", lit "2.2.2.2"]
        (fun ip => if ip = lit "1.1.1.1" then some 7 else some 3)
        = some rec ∧
      rec.fastIPs.length = min (qualCount [lit "1.1.1.1", lit "2.2.2.2"]
        (fun ip => if ip = lit "1.1.1.1" then some 7 else some 3))
        FAST_IP_COUNT ∧
      rec.fastIPs.Pairwise (fun a b => a.latency ≤ b.latency) ∧
      rec.count = rec.fastIPs.length :=
  (autoSpeed_bounds _ _).2 (by decide)

/-! ## Claim theorems: harvesting -/

theorem collectStep_ok (acc : List JSStr × List SourceReport) (name : JSStr)
    (content : JSStr) :
    collectStep acc (name, Except.ok content) =
      ((extractIPs content).foldl
        (fun s ip => if isValidIPv4 ip then insertUnique s ip else s) acc.1,
       acc.2 ++ [⟨name, lit "success", (extractIPs content).length, none⟩]) := by
  rfl

theorem collectStep_err (acc : List JSStr × List SourceReport) (name : JSStr)
    (e : JSStr) :
    collectStep acc (name, Except.error e) =
      (acc.1, acc.2 ++ [⟨name, lit "error", 0, some e⟩]) := rfl

theorem collectStep_report (acc : List JSStr × List SourceReport)
    (src : JSStr × Except JSStr JSStr) :
    (collectStep acc src).2 = acc.2 ++ [mkReport src] := by
  rcases src with ⟨name, c⟩
  rcases c with e | content
  · rfl
  · rfl

theorem collectStep_set (acc acc' : List JSStr × List SourceReport)
    (src : JSStr × Except JSStr JSStr) (h : acc.1 = acc'.1) :
    (collectStep acc src).1 = (collectStep acc' src).1 := by
  rcases src with ⟨name, c⟩
  rcases c with e | content
  · exact h
  · simp only [collectStep_ok, h]

theorem collect_reports (srcs : List (JSStr × Except JSStr JSStr)) :
    ∀ acc : List JSStr × List SourceReport,
      (srcs.foldl collectStep acc).2 = acc.2 ++ srcs.map mkReport := by
  induction srcs with
  | nil => intro acc; simp
  | cons src rest ih =>
    intro acc
    rw [List.foldl_cons, ih (collectStep acc src), collectStep_report]
    simp

theorem collect_set_indep (srcs : List (JSStr × Except JSStr JSStr)) :
    ∀ acc acc' : List JSStr × List SourceReport, acc.1 = acc'.1 →
      (srcs.foldl collectStep acc).1 = (srcs.foldl collectStep acc').1 := by
  induction srcs with
  | nil => intro acc acc' h; exact h
  | cons src rest ih =>
    intro acc acc' h
    rw [List.foldl_cons, List.foldl_cons]
    exact ih _ _ (collectStep_set acc acc' src h)

/-- C7: with one failing source in the middle of the run, the final address
list is identical to the run without that source (the other sources'
contributions are untouched), exactly one report is produced per source, and
the failing source's report has status `"error"` with its message. -/
theorem updateAllIPs_source_isolation
    (pre post : List (JSStr × Except JSStr JSStr)) (name emsg : JSStr)
    (_hpre : ∀ s ∈ pre, ∃ c, s.2 = Except.ok c)
    (_hpost : ∀ s ∈ post, ∃ c, s.2 = Except.ok c) :
    (updateAllIPs (pre ++ (name, Except.error emsg) :: post)).1 =
      (updateAllIPs (pre ++ post)).1 ∧
    (updateAllIPs (pre ++ (name, Except.error emsg) :: post)).2 =
      (pre ++ (name, Except.error emsg) :: post).map mkReport ∧
    ((updateAllIPs (pre ++ (name, Except.error emsg) :: post)).2)[pre.length]?
      = some ⟨name, lit "error", 0, some emsg⟩ := by
  have hrep : (updateAllIPs (pre ++ (name, Except.error emsg) :: post)).2 =
      (pre ++ (name, Except.error emsg) :: post).map mkReport := by
    unfold updateAllIPs
    rw [collect_reports]
    simp
  refine ⟨?_, hrep, ?_⟩
  · unfold updateAllIPs
    have hsets :
        ((pre ++ (name, Except.error emsg) :: post).foldl collectStep
          ([], [])).1
        = ((pre ++ post).foldl collectStep ([], [])).1 := by
      rw [List.foldl_append, List.foldl_append, List.foldl_cons]
      exact collect_set_indep post _ _ (by rw [collectStep_err])
    simp only [hsets]
  · rw [hrep, List.map_append]
    rw [List.getElem?_append_right (by simp)]
    simp [mkReport]

/-- Witness for C7 at a concrete two-source run with a failing middle
source. -/
theorem updateAllIPs_source_isolation_witness :
    (updateAllIPs ([(lit "a", Except.ok (lit "1.1.1.1"))] ++
        (lit "bad", Except.error (lit "timeout")) ::
        [(lit "b", Except.ok (lit "2.2.2.2"))])).1 =
      (updateAllIPs ([(lit "a", Except.ok (lit "1.1.1.1"))] ++
        [(lit "b", Except.ok (lit "2.2.2.2"))])).1 ∧
    (updateAllIPs ([(lit "a", Except.ok (lit "1.1.1.1"))] ++
        (lit "bad", Except.error (lit "timeout")) ::
        [(lit "b", Except.ok (lit "2.2.2.2"))])).2 =
      ([(lit "a", Except.ok (lit "1.1.1.1"))] ++
        (lit "bad", Except.error (lit "timeout")) ::
        [(lit "b", Except.ok (lit "2.2.2.2"))]).map mkReport ∧
    ((updateAllIPs ([(lit "a", Except.ok (lit "1.1.1.1"))] ++
        (lit "bad", Except.error (lit "timeout")) ::
        [(lit "b", Except.ok (lit "2.2.2.2"))])).2)[(1 : Nat)]?
      = some ⟨lit "bad", lit "error", 0, some (lit "timeout")⟩ :=
  updateAllIPs_source_isolation [(lit "a", Except.ok (lit "1.1.1.1"))]
    [(lit "b", Except.ok (lit "2.2.2.2"))] (lit "bad") (lit "timeout")
    (by rintro s hs; simp at hs; subst hs; exact ⟨_, rfl⟩)
    (by rintro s hs; simp at hs; subst hs; exact ⟨_, rfl⟩)

theorem chain4_trans (a0 a1 a2 a3 b0 b1 b2 b3 c0 c1 c2 c3 : Int)
    (h1 : (if a0 ≠ b0 then a0 - b0 else if a1 ≠ b1 then a1 - b1
      else if a2 ≠ b2 then a2 - b2 else if a3 ≠ b3 then a3 - b3 else 0) ≤ 0)
    (h2 : (if b0 ≠ c0 then b0 - c0 else if b1 ≠ c1 then b1 - c1
      else if b2 ≠ c2 then b2 - c2 else if b3 ≠ c3 then b3 - c3 else 0) ≤ 0) :
    (if a0 ≠ c0 then a0 - c0 else if a1 ≠ c1 then a1 - c1
      else if a2 ≠ c2 then a2 - c2 else if a3 ≠ c3 then a3 - c3 else 0) ≤ 0 := by
  split_ifs at * <;> omega

theorem chain4_total (a0 a1 a2 a3 b0 b1 b2 b3 : Int) :
    (if a0 ≠ b0 then a0 - b0 else if a1 ≠ b1 then a1 - b1
      else if a2 ≠ b2 then a2 - b2 else if a3 ≠ b3 then a3 - b3 else 0) ≤ 0 ∨
    (if b0 ≠ a0 then b0 - a0 else if b1 ≠ a1 then b1 - a1
      else if b2 ≠ a2 then b2 - a2 else if b3 ≠ a3 then b3 - a3 else 0) ≤ 0 := by
  split_ifs <;> omega

theorem ipLe_trans (a b c : JSStr) :
    ipLe a b → ipLe b c → ipLe a c := by
  simp only [ipLe, decide_eq_true_eq]
  unfold ipCmp
  exact chain4_trans _ _ _ _ _ _ _ _ _ _ _ _

theorem ipLe_total (a b : JSStr) : ipLe a b || ipLe b a := by
  simp only [ipLe, Bool.or_eq_true, decide_eq_true_eq]
  unfold ipCmp
  exact chain4_total _ _ _ _ _ _ _ _

theorem insertUnique_nodup (s : List JSStr) (ip : JSStr) (h : s.Nodup) :
    (insertUnique s ip).Nodup := by
  unfold insertUnique
  split
  · exact h
  · simp [List.nodup_append, h]
    assumption

theorem validFold_nodup (ms : List JSStr) :
    ∀ s : List JSStr, s.Nodup →
      (ms.foldl (fun s ip => if isValidIPv4 ip then insertUnique s ip else s)
        s).Nodup := by
  induction ms with
  | nil => intro s h; exact h
  | cons ip rest ih =>
    intro s h
    rw [List.foldl_cons]
    by_cases hv : isValidIPv4 ip = true
    · simp only [hv, if_true]
      exact ih _ (insertUnique_nodup s ip h)
    · simp only [hv, if_false]
      exact ih _ h

theorem collect_fold_nodup (srcs : List (JSStr × Except JSStr JSStr)) :
    ∀ acc : List JSStr × List SourceReport, acc.1.Nodup →
      ((srcs.foldl collectStep acc).1).Nodup := by
  induction srcs with
  | nil => intro acc h; exact h
  | cons src rest ih =>
    intro acc h
    rw [List.foldl_cons]
    apply ih
    rcases src with ⟨name, c⟩
    rcases c with e | content
    · exact h
    · rw [collectStep_ok]
      exact validFold_nodup _ _ h

/-- C5: for every collection of settled source fetches, the harvested address
list carries no duplicates and is sorted ascending under the numeric
4-tuple comparator; on the spec's example text (occurrences `10.0.0.1`,
`1.1.1.1`, `1.1.1.1`, `2.2.2.2`) the output is exactly
`["1.1.1.1", "2.2.2.2"]` (the `10.` address is filtered as private, the
duplicate collapses). -/
theorem updateAllIPs_nodup_sorted :
    (∀ sources, ((updateAllIPs sources).1).Nodup ∧
      ((updateAllIPs sources).1).Pairwise (fun a b => ipLe a b = true)) ∧
    (updateAllIPs
        [(lit "src", Except.ok (lit "10.0.0.1 1.1.1.1 1.1.1.1 2.2.2.2"))]).1 =
      [lit "1.1.1.1", lit "2.2.2.2"] := by
  constructor
  · intro sources
    constructor
    · unfold updateAllIPs
      exact (List.mergeSort_perm _ ipLe).nodup_iff.mpr
        (collect_fold_nodup sources ([], []) (by simp))
    · unfold updateAllIPs
      exact List.sorted_mergeSort (fun a b c => ipLe_trans a b c) ipLe_total _
  · have hfold :
        (([(lit "src",
            Except.ok (lit "10.0.0.1 1.1.1.1 1.1.1.1 2.2.2.2"))].foldl
          collectStep ([], [])).1 : List JSStr)
        = [lit "1.1.1.1", lit "2.2.2.2"] := by decide
    show (([(lit "src",
        Except.ok (lit "10.0.0.1 1.1.1.1 1.1.1.1 2.2.2.2"))].foldl
          collectStep ([], [])).1).mergeSort ipLe
      = [lit "1.1.1.1", lit "2.2.2.2"]
    rw [hfold]
    exact List.mergeSort_of_sorted (by decide)

/-! ## Claim theorems: the address validator against the spec wording -/

theorem splitDot_ne_nil (cs : JSStr) : splitDot cs ≠ [] := by
  induction cs with
  | nil => simp [splitDot]
  | cons c rest ih =>
    unfold splitDot
    by_cases hc : c = '.'
    · simp [hc]
    · simp only [hc, if_false]
      rcases h : splitDot rest with _ | ⟨g, gs⟩
      · simp
      · simp

theorem splitDot_chars (cs : JSStr) :
    ∀ p ∈ splitDot cs, ∀ c ∈ p, c ∈ cs ∧ c ≠ '.' := by
  induction cs with
  | nil =>
    intro p hp c hc
    simp [splitDot] at hp
    subst hp
    simp at hc
  | cons x rest ih =>
    intro p hp c hc
    unfold splitDot at hp
    by_cases hx : x = '.'
    · simp only [hx, if_true] at hp
      rcases List.mem_cons.mp hp with h | h
      · subst h
        simp at hc
      · have := ih p h c hc
        exact ⟨List.mem_cons_of_mem _ this.1, this.2⟩
    · simp only [hx, if_false] at hp
      rcases hsp : splitDot rest with _ | ⟨g, gs⟩
      · exact absurd hsp (splitDot_ne_nil rest)
      · rw [hsp] at hp
        rcases List.mem_cons.mp hp with h | h
        · subst h
          rcases List.mem_cons.mp hc with h | h
          · subst h
            exact ⟨List.mem_cons_self _ _, hx⟩
          · have := ih g (by rw [hsp]; exact List.mem_cons_self _ _) c h
            exact ⟨List.mem_cons_of_mem _ this.1, this.2⟩
        · have := ih p (by rw [hsp]; exact List.mem_cons_of_mem _ h) c hc
          exact ⟨List.mem_cons_of_mem _ this.1, this.2⟩

theorem joinDot_splitDot (cs : JSStr) : joinDot (splitDot cs) = cs := by
  induction cs with
  | nil => rfl
  | cons c rest ih =>
    unfold splitDot
    by_cases hc : c = '.'
    · simp only [hc, if_true]
      rcases hsp : splitDot rest with _ | ⟨g, gs⟩
      · exact absurd hsp (splitDot_ne_nil rest)
      · rw [hsp] at ih
        show joinDot ([] :: g :: gs) = '.' :: rest
        unfold joinDot
        rw [ih]
        simp
    · simp only [hc, if_false]
      rcases hsp : splitDot rest with _ | ⟨g, gs⟩
      · exact absurd hsp (splitDot_ne_nil rest)
      · rw [hsp] at ih
        rcases gs with _ | ⟨g2, gs'⟩
        · show joinDot [c :: g] = c :: rest
          unfold joinDot at ih ⊢
          rw [← ih]
        · show joinDot ((c :: g) :: g2 :: gs') = c :: rest
          unfold joinDot at ih ⊢
          rw [← ih]
          simp

theorem dotfree_prefix_unique :
    ∀ (a b u v : JSStr), '.' ∉ a → '.' ∉ b →
      a ++ '.' :: u = b ++ '.' :: v → a = b := by
  intro a
  induction a with
  | nil =>
    intro b u v _ hb h
    rcases b with _ | ⟨y, b'⟩
    · rfl
    · exfalso
      simp only [List.nil_append, List.cons_append, List.cons.injEq] at h
      apply hb
      rw [← h.1]
      exact List.mem_cons_self _ _
  | cons x a' ih =>
    intro b u v ha hb h
    rcases b with _ | ⟨y, b'⟩
    · exfalso
      simp only [List.nil_append, List.cons_append, List.cons.injEq] at h
      apply ha
      rw [h.1]
      exact List.mem_cons_self _ _
    · simp only [List.cons_append, List.cons.injEq] at h
      have hx : x = y := h.1
      have := ih b' u v (fun hm => ha (List.mem_cons_of_mem _ hm))
        (fun hm => hb (List.mem_cons_of_mem _ hm)) h.2
      rw [hx, this]

theorem isDig_cases (c : Char) (h : isDig c = true) :
    c = '0' ∨ c = '1' ∨ c = '2' ∨ c = '3' ∨ c = '4' ∨ c = '5' ∨ c = '6' ∨
    c = '7' ∨ c = '8' ∨ c = '9' := by
  simp [isDig, digitChars] at h
  tauto

theorem digVal_le (c : Char) : digVal c ≤ 9 := by
  unfold digVal
  split_ifs <;> omega

theorem digVal_pos (c : Char) (h : c ≠ '0') : 1 ≤ digVal c := by
  unfold digVal
  split_ifs <;> simp_all

theorem char_of_digVal (c d : Char) (hc : isDig c = true) (hd : isDig d = true)
    (h : digVal c = digVal d) : c = d := by
  rcases isDig_cases c hc with rfl|rfl|rfl|rfl|rfl|rfl|rfl|rfl|rfl|rfl <;>
    rcases isDig_cases d hd with rfl|rfl|rfl|rfl|rfl|rfl|rfl|rfl|rfl|rfl <;>
    revert h <;> decide

theorem isDig_not_ws (c : Char) (h : isDig c = true) : isJsWs c = false := by
  rcases isDig_cases c h with rfl|rfl|rfl|rfl|rfl|rfl|rfl|rfl|rfl|rfl <;> decide

theorem isDig_ne_minus (c : Char) (h : isDig c = true) : ¬ (c = '-') := by
  rcases isDig_cases c h with rfl|rfl|rfl|rfl|rfl|rfl|rfl|rfl|rfl|rfl <;> decide

theorem isDig_ne_plus (c : Char) (h : isDig c = true) : ¬ (c = '+') := by
  rcases isDig_cases c h with rfl|rfl|rfl|rfl|rfl|rfl|rfl|rfl|rfl|rfl <;> decide

theorem natValFrom_eq (cs : JSStr) :
    ∀ acc : Nat, natValFrom acc cs = acc * 10 ^ cs.length + natVal cs := by
  induction cs with
  | nil => intro acc; simp [natValFrom, natVal]
  | cons c rest ih =>
    intro acc
    show natValFrom (10 * acc + digVal c) rest
      = acc * 10 ^ (rest.length + 1) + natVal (c :: rest)
    rw [ih (10 * acc + digVal c)]
    have hv : natVal (c :: rest) = digVal c * 10 ^ rest.length + natVal rest := by
      show natValFrom (10 * 0 + digVal c) rest = _
      rw [ih (10 * 0 + digVal c)]
      ring
    rw [hv]
    ring

theorem natVal_cons (c : Char) (rest : JSStr) :
    natVal (c :: rest) = digVal c * 10 ^ rest.length + natVal rest := by
  show natValFrom (10 * 0 + digVal c) rest = _
  rw [natValFrom_eq rest (10 * 0 + digVal c)]
  ring

theorem natVal_lt (p : JSStr) : natVal p < 10 ^ p.length := by
  induction p with
  | nil => simp [natVal, natValFrom]
  | cons c rest ih =>
    have h2 := digVal_le c
    rw [natVal_cons, List.length_cons]
    calc digVal c * 10 ^ rest.length + natVal rest
        < (digVal c + 1) * 10 ^ rest.length := by
          have : 0 < 10 ^ rest.length := Nat.pos_pow_of_pos _ (by omega)
          nlinarith
      _ ≤ 10 * 10 ^ rest.length := by
          exact Nat.mul_le_mul_right _ (by omega)
      _ = 10 ^ (rest.length + 1) := by
          rw [pow_succ]
          ring

theorem natVal_ge (c : Char) (rest : JSStr) (h : c ≠ '0') :
    10 ^ rest.length ≤ natVal (c :: rest) := by
  rw [natVal_cons]
  calc 10 ^ rest.length = 1 * 10 ^ rest.length := by ring
    _ ≤ digVal c * 10 ^ rest.length :=
        Nat.mul_le_mul_right _ (digVal_pos c h)
    _ ≤ digVal c * 10 ^ rest.length + natVal rest := Nat.le_add_right _ _

theorem natVal_eq_172 (p : JSStr) (hd : ∀ c ∈ p, isDig c = true)
    (hz : ¬ ((lit "0").isPrefixOf p = true ∧ 1 < p.length)) (hne : p ≠ []) :
    natVal p = 172 ↔ p = lit "172" := by
  constructor
  · intro h172
    rcases p with _ | ⟨c, rest⟩
    · exact absurd rfl hne
    · by_cases hc0 : c = '0'
      · subst hc0
        have hpre : (lit "0").isPrefixOf ('0' :: rest) = true := by
          simp [lit]
        have hlen : ¬ (1 < ('0' :: rest).length) := fun hl => hz ⟨hpre, hl⟩
        have hrest : rest = [] := by
          rcases rest with _ | ⟨x, xs⟩
          · rfl
          · exfalso
            apply hlen
            simp
        subst hrest
        exact absurd h172 (by decide)
      · have hlow : 10 ^ rest.length ≤ 172 := h172 ▸ natVal_ge c rest hc0
        have hhigh : (172 : Nat) < 10 ^ (rest.length + 1) := by
          have := natVal_lt (c :: rest)
          rw [h172] at this
          simpa using this
        have hL2 : rest.length = 2 := by
          have hub : rest.length < 3 := by
            by_contra hge
            push_neg at hge
            have hkilo : (1000 : Nat) ≤ 10 ^ rest.length := by
              calc (1000 : Nat) = 10 ^ 3 := by norm_num
                _ ≤ 10 ^ rest.length := Nat.pow_le_pow_right (by omega) hge
            omega
          have hlb : 2 ≤ rest.length := by
            by_contra hlt
            push_neg at hlt
            have hcent : (10 : Nat) ^ (rest.length + 1) ≤ 100 := by
              calc (10 : Nat) ^ (rest.length + 1) ≤ 10 ^ 2 :=
                    Nat.pow_le_pow_right (by omega) (by omega)
                _ = 100 := by norm_num
            omega
          omega
        rcases rest with _ | ⟨b, rest2⟩
        · simp at hL2
        · rcases rest2 with _ | ⟨a2, rest3⟩
          · simp at hL2
          · rcases rest3 with _ | ⟨x, xs⟩
            · have hval : 100 * digVal c + 10 * digVal b + digVal a2 = 172 := by
                have := h172
                rw [natVal_cons, natVal_cons, natVal_cons] at this
                simp [natVal, natValFrom] at this
                omega
              have hdc : digVal c = 1 := by
                have b1 := digVal_le c
                have b2 := digVal_le b
                have b3 := digVal_le a2
                omega
              have hdb : digVal b = 7 := by
                have b2 := digVal_le b
                have b3 := digVal_le a2
                omega
              have hda : digVal a2 = 2 := by
                have b3 := digVal_le a2
                omega
              have hc1 : c = '1' := char_of_digVal c '1'
                (hd c (by simp)) (by decide) (by rw [hdc]; decide)
              have hb7 : b = '7' := char_of_digVal b '7'
                (hd b (by simp)) (by decide) (by rw [hdb]; decide)
              have ha2 : a2 = '2' := char_of_digVal a2 '2'
                (hd a2 (by simp)) (by decide) (by rw [hda]; decide)
              rw [hc1, hb7, ha2]
              decide
            · simp at hL2
  · intro h
    rw [h]
    decide

theorem jsParseInt_cons (cs : JSStr) (c : Char) (rest : JSStr)
    (h : cs.dropWhile isJsWs = c :: rest) :
    jsParseInt cs =
      (if c = '-' then
        if leadingDigits rest = [] then none
        else some (-(natVal (leadingDigits rest) : Int))
      else if c = '+' then
        if leadingDigits rest = [] then none
        else some ((natVal (leadingDigits rest) : Int))
      else
        if leadingDigits (c :: rest) = [] then none
        else some ((natVal (leadingDigits (c :: rest)) : Int))) := by
  unfold jsParseInt
  rw [h]

theorem jsParseInt_digits (p : JSStr) (hd : ∀ c ∈ p, isDig c = true) :
    jsParseInt p = if p = [] then none else some ((natVal p : Int)) := by
  rcases p with _ | ⟨c, rest⟩
  · rfl
  · have hc := hd c (List.mem_cons_self c rest)
    have h1 : (c :: rest).dropWhile isJsWs = c :: rest := by
      rw [List.dropWhile_cons, isDig_not_ws c hc]
      simp
    have h2 : leadingDigits (c :: rest) = c :: rest := by
      unfold leadingDigits
      exact List.takeWhile_eq_self_iff.mpr hd
    rw [jsParseInt_cons (c :: rest) c rest h1,
      if_neg (isDig_ne_minus c hc), if_neg (isDig_ne_plus c hc), h2]

theorem partsOk_digits (ps : List JSStr)
    (hd : ∀ p ∈ ps, ∀ c ∈ p, isDig c = true) :
    partsOk ps = true ↔ ∀ p ∈ ps, specGroupOk p = true := by
  induction ps with
  | nil => simp [partsOk]
  | cons p rest ih =>
    have hdp : ∀ c ∈ p, isDig c = true :=
      fun c hc => hd p (List.mem_cons_self _ _) c hc
    have hdr : ∀ q ∈ rest, ∀ c ∈ q, isDig c = true :=
      fun q hq => hd q (List.mem_cons_of_mem _ hq)
    have ihr := ih hdr
    simp only [partsOk]
    rw [jsParseInt_digits p hdp]
    by_cases hp : p = []
    · simp only [hp, if_pos rfl]
      constructor
      · intro h
        exact absurd h (by simp)
      · intro h
        have := h [] (List.mem_cons_self _ _)
        simp [specGroupOk] at this
    · rw [if_neg hp]
      show (if (decide ((natVal p : Int) < 0) ||
            decide (255 < (natVal p : Int))) = true then false
          else if (List.isPrefixOf (lit "0") p &&
            decide (1 < List.length p)) = true then false
          else partsOk rest) = true ↔ _
      by_cases h255 : natVal p ≤ 255
      · have hcond : ((natVal p : Int) < 0 || 255 < (natVal p : Int)) = false := by
          simp only [Bool.or_eq_false_iff, decide_eq_false_iff_not]
          constructor
          · exact not_lt.mpr (Int.ofNat_nonneg _)
          · exact not_lt.mpr (by exact_mod_cast h255)
        rw [hcond]
        simp only [Bool.false_eq_true, if_false]
        by_cases hlz : ((lit "0").isPrefixOf p && decide (1 < p.length)) = true
        · rw [if_pos hlz]
          constructor
          · intro h
            exact absurd h (by simp)
          · intro h
            have := h p (List.mem_cons_self _ _)
            simp only [specGroupOk, Bool.and_eq_true] at this
            rw [hlz] at this
            simp at this
        · rw [if_neg hlz]
          rw [ihr]
          constructor
          · intro h
            intro q hq
            rcases List.mem_cons.mp hq with rfl | hq2
            · simp only [specGroupOk, Bool.and_eq_true]
              refine ⟨⟨⟨?_, ?_⟩, ?_⟩, ?_⟩
              · simpa [List.isEmpty_iff] using hp
              · exact List.all_eq_true.mpr hdp
              · simpa using h255
              · cases hb : ((lit "0").isPrefixOf q && decide (1 < q.length)) with
                | false => rfl
                | true => exact absurd hb hlz
            · exact h q hq2
          · intro h q hq
            exact h q (List.mem_cons_of_mem _ hq)
      · have hcond : ((natVal p : Int) < 0 || 255 < (natVal p : Int)) = true := by
          simp only [Bool.or_eq_true, decide_eq_true_eq]
          right
          exact_mod_cast not_le.mp h255
        rw [if_pos hcond]
        constructor
        · intro h
          exact absurd h (by simp)
        · intro h
          have := h p (List.mem_cons_self _ _)
          simp only [specGroupOk, Bool.and_eq_true, decide_eq_true_eq] at this
          exact absurd this.1.2 h255

theorem length_four (l : List JSStr) (h : l.length = 4) :
    ∃ a b c d, l = [a, b, c, d] := by
  rcases l with _ | ⟨a, l⟩
  · simp at h
  rcases l with _ | ⟨b, l⟩
  · simp at h
  rcases l with _ | ⟨c, l⟩
  · simp at h
  rcases l with _ | ⟨d, l⟩
  · simp at h
  rcases l with _ | ⟨e, l⟩
  · exact ⟨a, b, c, d, rfl⟩
  · simp at h

theorem lit_172dot : lit "172." = lit "172" ++ ['.'] := by decide

theorem prefix172_iff (p0 u : JSStr) (hp0 : '.' ∉ p0) :
    (lit "172.").isPrefixOf (p0 ++ '.' :: u) = true ↔ p0 = lit "172" := by
  rw [List.isPrefixOf_iff_prefix]
  constructor
  · rintro ⟨t, ht⟩
    rw [lit_172dot] at ht
    have ht2 : lit "172" ++ '.' :: t = p0 ++ '.' :: u := by
      simpa [List.append_assoc] using ht
    exact (dotfree_prefix_unique (lit "172") p0 t u (by decide) hp0 ht2).symm
  · intro h
    rw [h, lit_172dot]
    exact ⟨u, by simp⟩

theorem bool_if_not (b : Bool) : (if b = true then false else true) = !b := by
  cases b <;> rfl

theorem isValidIPv4_unfold (s : JSStr) (h4 : (splitDot s).length = 4)
    (hok : partsOk (splitDot s) = true) :
    isValidIPv4 s =
      !((lit "10.").isPrefixOf s ||
        (lit "192.168.").isPrefixOf s ||
        ((lit "172.").isPrefixOf s &&
          (match jsParseInt ((splitDot s).getD 1 []) with
           | some n => decide (16 ≤ n) && decide (n ≤ 31)
           | none => false)) ||
        (lit "127.").isPrefixOf s ||
        (lit "169.254.").isPrefixOf s ||
        (s == lit "255.255.255.255")) := by
  unfold isValidIPv4
  have c1 : ((splitDot s).length != 4) = false := by simp [h4]
  rw [c1, hok]
  rw [if_neg (fun h => Bool.false_ne_true h)]
  rw [show (!true) = false from rfl]
  rw [if_neg (fun h => Bool.false_ne_true h)]
  exact bool_if_not _

theorem specValidIPv4_unfold (s : JSStr) (h4 : (splitDot s).length = 4)
    (hall : (splitDot s).all specGroupOk = true) :
    specValidIPv4 s =
      (!((lit "10.").isPrefixOf s) && !((lit "192.168.").isPrefixOf s) &&
       !((lit "127.").isPrefixOf s) && !((lit "169.254.").isPrefixOf s) &&
       !(s == lit "255.255.255.255") &&
       !(decide (natVal ((splitDot s).getD 0 []) = 172) &&
         decide (16 ≤ natVal ((splitDot s).getD 1 [])) &&
         decide (natVal ((splitDot s).getD 1 []) ≤ 31))) := by
  unfold specValidIPv4
  rw [hall, show (decide ((splitDot s).length = 4)) = true from by simp [h4]]
  simp only [Bool.true_and]

/-- C4 amended: over strings made of digits and dots only, `isValidIPv4`
coincides exactly with the specification's characterization
(`specValidIPv4`); the counterexample `"1.2.3.4x"` shows the equivalence
fails on arbitrary strings because `parseInt` tolerates a non-digit tail. -/
theorem isValidIPv4_spec_equiv (s : JSStr)
    (hdom : ∀ c ∈ s, isDig c = true ∨ c = '.') :
    isValidIPv4 s = true ↔ specValidIPv4 s = true := by
  have hpdig : ∀ p ∈ splitDot s, ∀ c ∈ p, isDig c = true := by
    intro p hp c hc
    have h2 := splitDot_chars s p hp c hc
    rcases hdom c h2.1 with h | h
    · exact h
    · exact absurd h h2.2
  by_cases h4 : (splitDot s).length = 4
  case neg =>
    constructor
    · intro h
      exfalso
      simp [isValidIPv4, h4] at h
    · intro h
      exfalso
      simp [specValidIPv4, h4] at h
  case pos =>
    by_cases hok : partsOk (splitDot s) = true
    case neg =>
      have hokf : partsOk (splitDot s) = false := Bool.eq_false_iff.mpr hok
      constructor
      · intro h
        exfalso
        simp [isValidIPv4, h4, hokf] at h
      · intro h
        exfalso
        simp only [specValidIPv4, Bool.and_eq_true, List.all_eq_true] at h
        exact hok ((partsOk_digits _ hpdig).mpr h.1.1.1.1.1.1.2)
    case pos =>
      obtain ⟨p0, p1, p2, p3, hsplit⟩ := length_four _ h4
      have hall := (partsOk_digits _ hpdig).mp hok
      have hallB : (splitDot s).all specGroupOk = true :=
        List.all_eq_true.mpr hall
      have hmem0 : p0 ∈ splitDot s := by rw [hsplit]; simp
      have hmem1 : p1 ∈ splitDot s := by rw [hsplit]; simp
      have hg0 := hall p0 hmem0
      have hg1 := hall p1 hmem1
      simp only [specGroupOk, Bool.and_eq_true, decide_eq_true_eq] at hg0 hg1
      have hne0 : p0 ≠ [] := by
        intro hnil
        rw [hnil] at hg0
        simp at hg0
      have hne1 : p1 ≠ [] := by
        intro hnil
        rw [hnil] at hg1
        simp at hg1
      have hlz0 : ¬ ((lit "0").isPrefixOf p0 = true ∧ 1 < p0.length) := by
        rintro ⟨hpre, hlen⟩
        have hx := hg0.2
        rw [Bool.not_eq_true'] at hx
        rw [hpre] at hx
        simp [hlen] at hx
      have hp0dig : ∀ c ∈ p0, isDig c = true := hpdig p0 hmem0
      have hp1dig : ∀ c ∈ p1, isDig c = true := hpdig p1 hmem1
      have hjoin : s = p0 ++ '.' :: joinDot [p1, p2, p3] := by
        have hj := joinDot_splitDot s
        rw [hsplit] at hj
        exact hj.symm
      have hp0nodot : '.' ∉ p0 :=
        fun hmem => (splitDot_chars s p0 hmem0 '.' hmem).2 rfl
      have hpref : (lit "172.").isPrefixOf s = true ↔ p0 = lit "172" := by
        rw [hjoin]
        exact prefix172_iff p0 _ hp0nodot
      have hnum : natVal p0 = 172 ↔ p0 = lit "172" :=
        natVal_eq_172 p0 hp0dig hlz0 hne0
      have hget0 : (splitDot s).getD 0 [] = p0 := by rw [hsplit]; rfl
      have hget1 : (splitDot s).getD 1 [] = p1 := by rw [hsplit]; rfl
      have hparse1 : jsParseInt p1 = some ((natVal p1 : Int)) := by
        rw [jsParseInt_digits p1 hp1dig, if_neg hne1]
      have hC : ((lit "172.").isPrefixOf s &&
          (match jsParseInt ((splitDot s).getD 1 []) with
           | some n => decide (16 ≤ n) && decide (n ≤ 31)
           | none => false))
          = (decide (natVal ((splitDot s).getD 0 []) = 172) &&
             (decide (16 ≤ natVal ((splitDot s).getD 1 [])) &&
              decide (natVal ((splitDot s).getD 1 []) ≤ 31))) := by
        rw [hget0, hget1, hparse1]
        show ((lit "172.").isPrefixOf s &&
          (decide (16 ≤ (natVal p1 : Int)) && decide ((natVal p1 : Int) ≤ 31)))
          = _
        congr 1
        · rw [Bool.eq_iff_iff, decide_eq_true_eq]
          exact hpref.trans hnum.symm
        · congr 1
          · exact decide_eq_decide.mpr (by norm_cast)
          · exact decide_eq_decide.mpr (by norm_cast)
      rw [isValidIPv4_unfold s h4 hok, specValidIPv4_unfold s h4 hallB, hC]
      generalize (lit "10.").isPrefixOf s = a
      generalize (lit "192.168.").isPrefixOf s = b
      generalize decide (natVal ((splitDot s).getD 0 []) = 172) = c1
      generalize decide (16 ≤ natVal ((splitDot s).getD 1 [])) = c2
      generalize decide (natVal ((splitDot s).getD 1 []) ≤ 31) = c3
      generalize (lit "127.").isPrefixOf s = d
      generalize (lit "169.254.").isPrefixOf s = e
      generalize (s == lit "255.255.255.255") = f
      revert a b c1 c2 c3 d e f
      decide

/-- C4 counterexample: `isValidIPv4` accepts `"1.2.3.4x"` — `parseInt("4x",
10)` reads `4` and ignores the tail — while the specification's
characterization (four *decimal* groups) rejects it, so the claimed
iff fails on arbitrary strings. -/
theorem isValidIPv4_spec_cex :
    isValidIPv4 (lit "1.2.3.4x") = true ∧
    specValidIPv4 (lit "1.2.3.4x") = false := by
  decide

/-- Witness for the amended C4 at the digits-and-dots string `"1.1.1.1"`. -/
theorem isValidIPv4_spec_equiv_witness :
    (∀ c ∈ lit "1.1.1.1", isDig c = true ∨ c = '.') ∧
    (isValidIPv4 (lit "1.1.1.1") = true ↔
      specValidIPv4 (lit "1.1.1.1") = true) :=
  ⟨by decide, isValidIPv4_spec_equiv (lit "1.1.1.1") (by decide)⟩

/-! ## Sanity checks of the embedding on concrete inputs -/

/-- Spot checks of `isValidIPv4` against the worker's behavior, including the
spec's own examples from §8. -/
theorem isValidIPv4_spot_checks :
    isValidIPv4 (lit "1.1.1.1") = true ∧
    isValidIPv4 (lit "192.168.1.1") = false ∧
    isValidIPv4 (lit "300.1.1.1") = false ∧
    isValidIPv4 (lit "10.0.0.1") = false ∧
    isValidIPv4 (lit "172.20.0.1") = false ∧
    isValidIPv4 (lit "172.32.0.1") = true ∧
    isValidIPv4 (lit "255.255.255.255") = false ∧
    isValidIPv4 (lit "169.254.3.3") = false ∧
    isValidIPv4 (lit "01.2.3.4") = false := by
  decide

/-- Spot checks of the regex-extraction model: boundaries, overlaps, HTML
context. -/
theorem extractIPs_spot_checks :
    extractIPs (lit "a 1.2.3.4 b") = [lit "1.2.3.4"] ∧
    extractIPs (lit "x1.2.3.4") = [] ∧
    extractIPs (lit "1234.5.6.7") = [] ∧
    extractIPs (lit "1.2.3.4.5.6.7.8") = [lit "1.2.3.4", lit "5.6.7.8"] ∧
    extractIPs (lit "<td>104.16.1.9</td>") = [lit "104.16.1.9"] := by
  decide
